import Mathlib

/-!
Verification of the LAN file-transfer tool (sender.py / receiver.py / utils.py)
against its natural-language specification.

The TCP byte stream delivered by the peer is modelled as a `List Nat`
(`pending`): the bytes the peer will deliver before it closes the
connection.  A single `sock.recv(req)` call returns some nonempty prefix of
`pending` of length at most `req` — which prefix is chosen by an adversarial
chunking `oracle : List Nat` (entry `k` makes the call deliver up to `k+1`
bytes) — or the empty chunk when the peer has closed and no bytes remain.
-/

namespace Transfer

/-- One `sock.recv req` call against pending bytes `pending`, with the
chunking oracle choosing to deliver up to `k+1` bytes.  Returns the chunk
(empty iff the stream is exhausted or `req = 0`). -/
def recvChunk (pending : List Nat) (req k : Nat) : List Nat :=
  pending.take (min req (k + 1))

theorem recvChunk_length (pending : List Nat) (req k : Nat) :
    (recvChunk pending req k).length = min (min req (k + 1)) pending.length := by
  simp [recvChunk]

/-- The loop of `recv_exact` in receiver.py:
`while len(data) < size: chunk = sock.recv(size - len(data)); if not chunk:
return None; data += chunk`.  Returns the result together with the bytes
still pending on the socket afterwards. -/
def recvExactGo (size : Nat) (acc pending oracle : List Nat) :
    Option (List Nat) × List Nat :=
  if _ : acc.length < size then
    if _ : (recvChunk pending (size - acc.length) (oracle.headD 0)).length = 0 then
      (none, pending)
    else
      recvExactGo size (acc ++ recvChunk pending (size - acc.length) (oracle.headD 0))
        (pending.drop (recvChunk pending (size - acc.length) (oracle.headD 0)).length)
        oracle.tail
  else (some acc, pending)
  termination_by pending.length
  decreasing_by
    rename_i h hc
    have hl := recvChunk_length pending (size - acc.length) (oracle.headD 0)
    simp only [List.length_drop]
    omega

/-- `recv_exact(sock, size)` from receiver.py. -/
def recvExact (pending oracle : List Nat) (size : Nat) :
    Option (List Nat) × List Nat :=
  recvExactGo size [] pending oracle

theorem recvExactGo_spec (size : Nat) :
    ∀ (n : Nat) (pending : List Nat), pending.length ≤ n →
    ∀ (acc oracle : List Nat),
      recvExactGo size acc pending oracle =
        if size ≤ acc.length + pending.length then
          (some (acc ++ pending.take (size - acc.length)),
            pending.drop (size - acc.length))
        else (none, []) := by
  intro n
  induction n with
  | zero =>
    intro pending hp acc oracle
    have hpe : pending = [] := List.length_eq_zero.mp (by omega)
    subst hpe
    rw [recvExactGo]
    by_cases h : acc.length < size
    · rw [dif_pos h]
      rw [dif_pos (by simp [recvChunk])]
      simp only [List.length_nil, Nat.add_zero]
      rw [if_neg (by omega)]
    · rw [dif_neg h]
      simp only [List.length_nil, Nat.add_zero]
      rw [if_pos (by omega)]
      have h0 : size - acc.length = 0 := by omega
      simp [h0]
  | succ n ih =>
    intro pending hp acc oracle
    rw [recvExactGo]
    by_cases h : acc.length < size
    · rw [dif_pos h]
      have hcl := recvChunk_length pending (size - acc.length) (oracle.headD 0)
      by_cases hc : (recvChunk pending (size - acc.length) (oracle.headD 0)).length = 0
      · rw [dif_pos hc]
        have hp0 : pending.length = 0 := by omega
        have hpe : pending = [] := List.length_eq_zero.mp hp0
        subst hpe
        simp only [List.length_nil, Nat.add_zero]
        rw [if_neg (by omega)]
      · rw [dif_neg hc]
        rw [ih _ (by simp only [List.length_drop]; omega)]
        by_cases hle : size ≤ acc.length + pending.length
        · have hmle : min (size - acc.length) (oracle.headD 0 + 1) ≤ size - acc.length :=
            Nat.min_le_left _ _
          have hmp : min (size - acc.length) (oracle.headD 0 + 1) ≤ pending.length := by
            omega
          have hclm : (recvChunk pending (size - acc.length) (oracle.headD 0)).length =
              min (size - acc.length) (oracle.headD 0 + 1) := by omega
          have hCtake : recvChunk pending (size - acc.length) (oracle.headD 0) =
              pending.take (min (size - acc.length) (oracle.headD 0 + 1)) := rfl
          rw [if_pos (by simp only [List.length_append, List.length_drop]; omega)]
          rw [if_pos hle]
          simp only [Prod.mk.injEq]
          refine ⟨?_, ?_⟩
          · rw [List.length_append, hclm, hCtake, List.append_assoc]
            have hidx : size - (acc.length + min (size - acc.length) (oracle.headD 0 + 1)) =
                size - acc.length - min (size - acc.length) (oracle.headD 0 + 1) := by
              omega
            rw [hidx, ← List.take_add]
            have hsum : min (size - acc.length) (oracle.headD 0 + 1) +
                (size - acc.length - min (size - acc.length) (oracle.headD 0 + 1)) =
                size - acc.length := by omega
            rw [hsum]
          · rw [List.length_append, hclm, List.drop_drop]
            have hidx2 : min (size - acc.length) (oracle.headD 0 + 1) +
                (size - (acc.length + min (size - acc.length) (oracle.headD 0 + 1))) =
                size - acc.length := by omega
            rw [hidx2]
        · rw [if_neg (by simp only [List.length_append, List.length_drop]; omega)]
          rw [if_neg hle]
    · rw [dif_neg h]
      rw [if_pos (by omega)]
      have h0 : size - acc.length = 0 := by omega
      simp [h0]

/-- Characterization of `recv_exact`: it returns exactly the first `size`
pending bytes when that many will arrive, and `none` when the peer closes
first. -/
theorem recvExact_spec (pending oracle : List Nat) (size : Nat) :
    recvExact pending oracle size =
      if size ≤ pending.length then
        (some (pending.take size), pending.drop size)
      else (none, []) := by
  rw [recvExact, recvExactGo_spec size pending.length pending le_rfl]
  simp

/-- C9: `recv_exact(sock, size)` is all-or-nothing: for every size ≥ 0 it
returns either a byte string of length exactly `size`, or `None` when the
peer closes the stream before `size` bytes arrive; it never returns a
shorter non-`None` result, and for `size = 0` it returns the empty byte
string without consuming anything from the socket. -/
theorem recv_exact_all_or_nothing (pending oracle : List Nat) (size : Nat) :
    (∀ d r, recvExact pending oracle size = (some d, r) → d.length = size) ∧
    (pending.length < size → (recvExact pending oracle size).1 = none) ∧
    (recvExact pending oracle 0 = (some [], pending)) := by
  refine ⟨?_, ?_, ?_⟩
  · intro d r hd
    rw [recvExact_spec] at hd
    by_cases h : size ≤ pending.length
    · rw [if_pos h] at hd
      have hfst := congrArg Prod.fst hd
      simp only [Option.some.injEq] at hfst
      have : d = pending.take size := by
        simpa using hfst.symm
      subst this
      simp only [List.length_take]
      omega
    · rw [if_neg h] at hd
      exact absurd (congrArg Prod.fst hd) (by simp)
  · intro h
    rw [recvExact_spec, if_neg (by omega)]
  · rw [recvExact_spec, if_pos (by omega)]
    simp

/-! ## The `receive_file` payload loop

`receive_file` reads the payload with
`while received < size: chunk = sock.recv(min(BUFFER_SIZE, size - received))`,
raising "Connection lost during file transfer" on an empty chunk. -/

/-- The payload-reading loop of `receive_file` (buffer-capped requests). -/
def recvFileGo (buf size : Nat) (acc pending oracle : List Nat) :
    Option (List Nat) × List Nat :=
  if _ : acc.length < size then
    if _ : (recvChunk pending (min buf (size - acc.length)) (oracle.headD 0)).length = 0 then
      (none, pending)
    else
      recvFileGo buf size
        (acc ++ recvChunk pending (min buf (size - acc.length)) (oracle.headD 0))
        (pending.drop (recvChunk pending (min buf (size - acc.length)) (oracle.headD 0)).length)
        oracle.tail
  else (some acc, pending)
  termination_by pending.length
  decreasing_by
    rename_i h hc
    have hl := recvChunk_length pending (min buf (size - acc.length)) (oracle.headD 0)
    simp only [List.length_drop]
    omega

theorem recvFileGo_spec (buf size : Nat) (hbuf : 1 ≤ buf) :
    ∀ (n : Nat) (pending : List Nat), pending.length ≤ n →
    ∀ (acc oracle : List Nat),
      recvFileGo buf size acc pending oracle =
        if size ≤ acc.length + pending.length then
          (some (acc ++ pending.take (size - acc.length)),
            pending.drop (size - acc.length))
        else (none, []) := by
  intro n
  induction n with
  | zero =>
    intro pending hp acc oracle
    have hpe : pending = [] := List.length_eq_zero.mp (by omega)
    subst hpe
    rw [recvFileGo]
    by_cases h : acc.length < size
    · rw [dif_pos h]
      rw [dif_pos (by simp [recvChunk])]
      simp only [List.length_nil, Nat.add_zero]
      rw [if_neg (by omega)]
    · rw [dif_neg h]
      simp only [List.length_nil, Nat.add_zero]
      rw [if_pos (by omega)]
      have h0 : size - acc.length = 0 := by omega
      simp [h0]
  | succ n ih =>
    intro pending hp acc oracle
    rw [recvFileGo]
    by_cases h : acc.length < size
    · rw [dif_pos h]
      have hcl := recvChunk_length pending (min buf (size - acc.length)) (oracle.headD 0)
      by_cases hc :
          (recvChunk pending (min buf (size - acc.length)) (oracle.headD 0)).length = 0
      · rw [dif_pos hc]
        have hp0 : pending.length = 0 := by omega
        have hpe : pending = [] := List.length_eq_zero.mp hp0
        subst hpe
        simp only [List.length_nil, Nat.add_zero]
        rw [if_neg (by omega)]
      · rw [dif_neg hc]
        rw [ih _ (by simp only [List.length_drop]; omega)]
        by_cases hle : size ≤ acc.length + pending.length
        · have hmle : min (min buf (size - acc.length)) (oracle.headD 0 + 1) ≤
              size - acc.length := by omega
          have hmp : min (min buf (size - acc.length)) (oracle.headD 0 + 1) ≤
              pending.length := by omega
          have hclm :
              (recvChunk pending (min buf (size - acc.length)) (oracle.headD 0)).length =
              min (min buf (size - acc.length)) (oracle.headD 0 + 1) := by omega
          have hCtake : recvChunk pending (min buf (size - acc.length)) (oracle.headD 0) =
              pending.take (min (min buf (size - acc.length)) (oracle.headD 0 + 1)) := rfl
          rw [if_pos (by simp only [List.length_append, List.length_drop]; omega)]
          rw [if_pos hle]
          simp only [Prod.mk.injEq]
          refine ⟨?_, ?_⟩
          · rw [List.length_append, hclm, hCtake, List.append_assoc]
            have hidx : size -
                (acc.length + min (min buf (size - acc.length)) (oracle.headD 0 + 1)) =
                size - acc.length -
                  min (min buf (size - acc.length)) (oracle.headD 0 + 1) := by omega
            rw [hidx, ← List.take_add]
            have hsum : min (min buf (size - acc.length)) (oracle.headD 0 + 1) +
                (size - acc.length -
                  min (min buf (size - acc.length)) (oracle.headD 0 + 1)) =
                size - acc.length := by omega
            rw [hsum]
          · rw [List.length_append, hclm, List.drop_drop]
            have hidx2 : min (min buf (size - acc.length)) (oracle.headD 0 + 1) +
                (size -
                  (acc.length + min (min buf (size - acc.length)) (oracle.headD 0 + 1))) =
                size - acc.length := by omega
            rw [hidx2]
        · rw [if_neg (by simp only [List.length_append, List.length_drop]; omega)]
          rw [if_neg hle]
    · rw [dif_neg h]
      rw [if_pos (by omega)]
      have h0 : size - acc.length = 0 := by omega
      simp [h0]

/-! ## `_verify_file_hash` and `receive_file` -/

/-- A record appended to the shared failed-validations list on an integrity
mismatch (file path plus the two digest prefixes, truncated to 16 chars). -/
structure FailedValidation where
  file : String
  expected : String
  received : String
deriving DecidableEq

/-- `_verify_file_hash` from receiver.py: with `SKIP_HASH_VERIFICATION` it
reports valid without hashing; otherwise it hashes the received file and on
mismatch appends a record (path + truncated expected/received digests) to
the shared failed-validations list, returning `false`. -/
def verifyFileHash (skipHashVerification : Bool) (hashFn : List Nat → String)
    (filepath : String) (content : List Nat) (expectedHash : String)
    (failedValidations : List FailedValidation) :
    Bool × List FailedValidation :=
  if skipHashVerification then (true, failedValidations)
  else if hashFn content = expectedHash then (true, failedValidations)
  else (false, failedValidations ++
    [⟨filepath, expectedHash.take 16 ++ "...", (hashFn content).take 16 ++ "..."⟩])

/-- Filesystem/protocol state of one single-file receive, as observable
after `receive_file` returns: the staging temp file, the file at the final
destination path `RECEIVED_DIR/name` (with its bytes when present), the
shared failed-validations list, and whether `DONE` was sent. -/
structure FileRecvState where
  tempExists : Bool
  finalExists : Bool
  finalContent : Option (List Nat)
  failedValidations : List FailedValidation
  doneSent : Bool
deriving DecidableEq

/-- The `try` block of `receive_file`: create a temp file, read exactly
`size` payload bytes into it, verify the hash (recording mismatches but not
aborting), atomically move temp → final, send `DONE`.  `.error s` means an
exception was raised with the filesystem in state `s`.  Fallible external
steps (temp creation, the final move, the `DONE` send) are failure-injected
through the `mkstempOk / moveOk / doneSendOk` flags. -/
def receiveFileTry (bufferSize size : Nat) (name expectedHash : String)
    (skipHashVerification : Bool) (hashFn : List Nat → String)
    (pending oracle : List Nat)
    (finalExists0 : Bool) (finalContent0 : Option (List Nat))
    (failed0 : List FailedValidation)
    (mkstempOk moveOk doneSendOk : Bool) :
    Except FileRecvState FileRecvState :=
  let st0 : FileRecvState :=
    ⟨false, finalExists0, finalContent0, failed0, false⟩
  if mkstempOk = false then .error st0
  else
    let st1 := { st0 with tempExists := true }
    match recvFileGo bufferSize size [] pending oracle with
    | (none, _) => .error st1    -- "Connection lost during file transfer"
    | (some content, _) =>
      let (_, failed1) := verifyFileHash skipHashVerification hashFn
        (name ++ ".tmp") content expectedHash failed0
      let st2 := { st1 with failedValidations := failed1 }
      if moveOk = false then .error st2
      else
        let st3 := { st2 with tempExists := false, finalExists := true,
                              finalContent := some content }
        if doneSendOk = false then .error st3
        else .ok { st3 with doneSent := true }

/-- `receive_file` as seen by its caller `handle_client`: the `except`
block catches every exception, deletes the temp file if it still exists and
the file at the final path if one exists, and returns normally — it
contains no `raise`, so the `.error` case of the `try` body is mapped back
to `.ok` after cleanup. -/
def receiveFileCaught (bufferSize size : Nat) (name expectedHash : String)
    (skipHashVerification : Bool) (hashFn : List Nat → String)
    (pending oracle : List Nat)
    (finalExists0 : Bool) (finalContent0 : Option (List Nat))
    (failed0 : List FailedValidation)
    (mkstempOk moveOk doneSendOk : Bool) :
    Except String FileRecvState :=
  match receiveFileTry bufferSize size name expectedHash skipHashVerification
      hashFn pending oracle finalExists0 finalContent0 failed0
      mkstempOk moveOk doneSendOk with
  | .ok s => .ok s
  | .error s =>
      .ok { s with tempExists := false, finalExists := false, finalContent := none }

/-- The state `receive_file` leaves behind (it always returns normally). -/
def receiveFile (bufferSize size : Nat) (name expectedHash : String)
    (skipHashVerification : Bool) (hashFn : List Nat → String)
    (pending oracle : List Nat)
    (finalExists0 : Bool) (finalContent0 : Option (List Nat))
    (failed0 : List FailedValidation)
    (mkstempOk moveOk doneSendOk : Bool) : FileRecvState :=
  match receiveFileCaught bufferSize size name expectedHash skipHashVerification
      hashFn pending oracle finalExists0 finalContent0 failed0
      mkstempOk moveOk doneSendOk with
  | .ok s => s
  | .error _ => ⟨false, false, none, failed0, false⟩

/-- `handle_client` reports "Transfer completed" exactly when the dispatched
`receive_file` call returns without an exception propagating to it. -/
def handleClientReportsCompleted (r : Except String FileRecvState) : Bool :=
  match r with
  | .ok _ => true
  | .error _ => false

theorem recvFileGo_top (buf size : Nat) (hbuf : 1 ≤ buf) (pending oracle : List Nat) :
    recvFileGo buf size [] pending oracle =
      if size ≤ pending.length then (some (pending.take size), pending.drop size)
      else (none, []) := by
  rw [recvFileGo_spec buf size hbuf pending.length pending le_rfl]
  simp

/-- On any injected failure — temp creation, a short payload stream, the
final move, or the `DONE` send — `receive_file` returns normally (the
`except` block swallows the exception) with the temp file deleted, nothing
at the final path, and `DONE` unsent. -/
theorem receiveFileCaught_fail
    (bufferSize size : Nat) (name expectedHash : String)
    (skip : Bool) (hashFn : List Nat → String)
    (pending oracle : List Nat) (finalExists0 : Bool)
    (finalContent0 : Option (List Nat)) (failed0 : List FailedValidation)
    (mkstempOk moveOk doneSendOk : Bool)
    (hbuf : 1 ≤ bufferSize)
    (hfail : mkstempOk = false ∨ pending.length < size ∨
             moveOk = false ∨ doneSendOk = false) :
    ∃ F, receiveFileCaught bufferSize size name expectedHash skip hashFn pending
        oracle finalExists0 finalContent0 failed0 mkstempOk moveOk doneSendOk
      = .ok ⟨false, false, none, F, false⟩ := by
  simp only [receiveFileCaught, receiveFileTry]
  rw [recvFileGo_top bufferSize size hbuf pending oracle]
  cases mkstempOk with
  | false => exact ⟨failed0, rfl⟩
  | true =>
    by_cases hlen : size ≤ pending.length
    · rw [if_pos hlen]
      cases moveOk with
      | false => exact ⟨_, rfl⟩
      | true =>
        cases doneSendOk with
        | false => exact ⟨_, rfl⟩
        | true =>
          rcases hfail with h | h | h | h
          · exact absurd h (by simp)
          · omega
          · exact absurd h (by simp)
          · exact absurd h (by simp)
    · rw [if_neg hlen]
      exact ⟨failed0, rfl⟩

/-- C1: for every single-file receive that fails at any point after the
connection is accepted — temp-file creation failing, the connection closing
after fewer than `size` payload bytes, the final move failing, or the `DONE`
send failing — after `receive_file`'s cleanup no file exists at the final
destination path `RECEIVED_DIR/name` (and the temp staging file is gone
too); payload bytes are only ever written to the temp file, so no
partially-written file is ever visible under the final name. -/
theorem receive_file_atomicity
    (bufferSize size : Nat) (name expectedHash : String)
    (skip : Bool) (hashFn : List Nat → String)
    (pending oracle : List Nat) (finalExists0 : Bool)
    (finalContent0 : Option (List Nat)) (failed0 : List FailedValidation)
    (mkstempOk moveOk doneSendOk : Bool)
    (hbuf : 1 ≤ bufferSize)
    (hfail : mkstempOk = false ∨ pending.length < size ∨
             moveOk = false ∨ doneSendOk = false) :
    (receiveFile bufferSize size name expectedHash skip hashFn pending oracle
        finalExists0 finalContent0 failed0 mkstempOk moveOk doneSendOk).finalExists
      = false ∧
    (receiveFile bufferSize size name expectedHash skip hashFn pending oracle
        finalExists0 finalContent0 failed0 mkstempOk moveOk doneSendOk).finalContent
      = none ∧
    (receiveFile bufferSize size name expectedHash skip hashFn pending oracle
        finalExists0 finalContent0 failed0 mkstempOk moveOk doneSendOk).tempExists
      = false := by
  obtain ⟨F, hF⟩ := receiveFileCaught_fail bufferSize size name expectedHash skip
    hashFn pending oracle finalExists0 finalContent0 failed0 mkstempOk moveOk
    doneSendOk hbuf hfail
  simp only [receiveFile]
  rw [hF]
  exact ⟨rfl, rfl, rfl⟩

/-- Witness for C1 at a concrete failing input (connection closed after 2 of
5 declared bytes, with a stale file initially present at the final path). -/
theorem receive_file_atomicity_witness :
    (receiveFile 4 5 "a.bin" "h" false (fun _ => "h") [1, 2] [] true
        (some [9]) [] true true true).finalExists = false ∧
    (receiveFile 4 5 "a.bin" "h" false (fun _ => "h") [1, 2] [] true
        (some [9]) [] true true true).finalContent = none ∧
    (receiveFile 4 5 "a.bin" "h" false (fun _ => "h") [1, 2] [] true
        (some [9]) [] true true true).tempExists = false :=
  receive_file_atomicity 4 5 "a.bin" "h" false (fun _ => "h") [1, 2] [] true
    (some [9]) [] true true true (by decide) (Or.inr (Or.inl (by decide)))

/-- C2: when the full declared payload arrives but the computed hash differs
from the manifest's declared hash (and `SKIP_HASH_VERIFICATION` is false),
`receive_file` appends a failure record (file path plus truncated
expected/received digests) to the shared failed-validations list, still
moves the temp file to the final path (publishing the received bytes), and
sends `DONE`; the file is not deleted. -/
theorem receive_file_hash_mismatch_publishes
    (bufferSize size : Nat) (name expectedHash : String)
    (hashFn : List Nat → String) (pending oracle : List Nat)
    (finalExists0 : Bool) (finalContent0 : Option (List Nat))
    (failed0 : List FailedValidation)
    (hbuf : 1 ≤ bufferSize) (hlen : size ≤ pending.length)
    (hmm : hashFn (pending.take size) ≠ expectedHash) :
    (receiveFile bufferSize size name expectedHash false hashFn pending oracle
        finalExists0 finalContent0 failed0 true true true) =
      { tempExists := false
        finalExists := true
        finalContent := some (pending.take size)
        failedValidations := failed0 ++
          [⟨name ++ ".tmp", expectedHash.take 16 ++ "...",
            (hashFn (pending.take size)).take 16 ++ "..."⟩]
        doneSent := true } := by
  unfold receiveFile receiveFileCaught receiveFileTry
  rw [recvFileGo_top bufferSize size hbuf pending oracle]
  rw [if_pos hlen]
  simp [verifyFileHash, hmm]

/-- Witness for C2 at a concrete input: 3 bytes received in full, computed
digest "cccc" differs from declared digest "bbbb"; the file is published
with the failure recorded. -/
theorem receive_file_hash_mismatch_publishes_witness :
    (receiveFile 2 3 "a.bin" "bbbb" false (fun _ => "cccc") [1, 2, 3] [0, 0, 0]
        false none [] true true true) =
      { tempExists := false
        finalExists := true
        finalContent := some [1, 2, 3]
        failedValidations := [⟨"a.bin" ++ ".tmp", "bbbb" ++ "...", "cccc" ++ "..."⟩]
        doneSent := true } := by
  have h := receive_file_hash_mismatch_publishes 2 3 "a.bin" "bbbb"
    (fun _ => "cccc") [1, 2, 3] [0, 0, 0] false none [] (by omega) (by simp)
    (by decide)
  rw [h]
  decide

/-- C7 counterexample: a single-file receive in which the connection is lost
after 2 of 5 declared bytes.  `receive_file` performs its cleanup but —
contrary to the claim — does not propagate the error: it returns normally
(`.ok`), and `handle_client` treats the connection as a completed transfer. -/
theorem receive_file_no_propagation_cex :
    ([1, 2] : List Nat).length < 5 ∧
    receiveFileCaught 4 5 "a.bin" "h" false (fun _ => "x") [1, 2] [] false none []
        true true true = .ok ⟨false, false, none, [], false⟩ ∧
    handleClientReportsCompleted
      (receiveFileCaught 4 5 "a.bin" "h" false (fun _ => "x") [1, 2] [] false none []
        true true true) = true := by
  have hok : receiveFileCaught 4 5 "a.bin" "h" false (fun _ => "x") [1, 2] []
      false none [] true true true = .ok ⟨false, false, none, [], false⟩ := by
    simp only [receiveFileCaught, receiveFileTry]
    rw [recvFileGo_top 4 5 (by decide) [1, 2] []]
    rfl
  exact ⟨by decide, hok, by rw [hok]; rfl⟩

/-- C7 amended: for every failure during the single-file receive flow,
`receive_file` deletes the temporary file (and the final path if present)
but the error is caught inside `receive_file` and is NOT propagated to the
per-connection handler: the call returns normally and `handle_client`
treats the connection as a completed transfer. -/
theorem receive_file_cleanup_without_propagation
    (bufferSize size : Nat) (name expectedHash : String)
    (skip : Bool) (hashFn : List Nat → String)
    (pending oracle : List Nat) (finalExists0 : Bool)
    (finalContent0 : Option (List Nat)) (failed0 : List FailedValidation)
    (mkstempOk moveOk doneSendOk : Bool)
    (hbuf : 1 ≤ bufferSize)
    (hfail : mkstempOk = false ∨ pending.length < size ∨
             moveOk = false ∨ doneSendOk = false) :
    ∃ s : FileRecvState,
      receiveFileCaught bufferSize size name expectedHash skip hashFn pending
          oracle finalExists0 finalContent0 failed0 mkstempOk moveOk doneSendOk
        = .ok s ∧
      s.tempExists = false ∧ s.finalExists = false ∧ s.finalContent = none ∧
      s.doneSent = false ∧
      handleClientReportsCompleted
        (receiveFileCaught bufferSize size name expectedHash skip hashFn pending
          oracle finalExists0 finalContent0 failed0 mkstempOk moveOk doneSendOk)
        = true := by
  obtain ⟨F, hF⟩ := receiveFileCaught_fail bufferSize size name expectedHash skip
    hashFn pending oracle finalExists0 finalContent0 failed0 mkstempOk moveOk
    doneSendOk hbuf hfail
  refine ⟨⟨false, false, none, F, false⟩, hF, rfl, rfl, rfl, rfl, ?_⟩
  rw [hF]
  rfl

/-- Witness for the amended C7 at the same concrete failing input. -/
theorem receive_file_cleanup_without_propagation_witness :
    ∃ s : FileRecvState,
      receiveFileCaught 4 5 "a.bin" "h" false (fun _ => "x") [1, 2] [] false none []
          true true true = .ok s ∧
      s.tempExists = false ∧ s.finalExists = false ∧ s.finalContent = none ∧
      s.doneSent = false ∧
      handleClientReportsCompleted
        (receiveFileCaught 4 5 "a.bin" "h" false (fun _ => "x") [1, 2] [] false none []
          true true true) = true :=
  receive_file_cleanup_without_propagation 4 5 "a.bin" "h" false (fun _ => "x")
    [1, 2] [] false none [] true true true (by decide) (Or.inr (Or.inl (by decide)))

/-! ## `_receive_acknowledgment` (sender.py)

sender.py defines `_receive_acknowledgment` twice; the later definition
(cap at 1024 bytes, timeout save/restore) shadows the earlier one at module
load, so every call in `send_file` / `send_directory` runs the later one.
That effective definition is modelled here.  Timeouts are in (abstract)
ticks; `none` is Python's `settimeout(None)` blocking mode. -/

/-- `response.startswith(expected)` on the underlying byte/char lists. -/
def pyStartsWith (response tok : String) : Bool :=
  tok.data.isPrefixOf response.data

/-- `str.lower()`, modelled characterwise (the algorithm identifiers the
program compares are ASCII). -/
def pyLower (s : String) : String :=
  ⟨s.data.map Char.toLower⟩

/-- What the single `sock.recv(max_length)` call inside the helper did. -/
inductive SockRecvOutcome where
  | bytes (s : String)
  | timedOut
  | sockError (msg : String)
  | otherError (msg : String)
deriving DecidableEq

/-- Observable result of one `_receive_acknowledgment` call: the returned
`(success, response)` pair, the byte count requested from `recv`, the
timeout in force during the `recv`, and the socket's timeout setting after
the helper returns. -/
structure AckOutcome where
  success : Bool
  payload : String
  requestedLen : Nat
  recvTimeout : Nat
  finalTimeout : Option Nat
deriving DecidableEq

/-- The effective `_receive_acknowledgment(sock, expected_responses,
timeout)`: save `sock.gettimeout()`, set the new timeout, `recv` up to
`min(max(len(resp) ...), 1024)` bytes, return `(True, expected)` on a
leading-token match (first match wins) or `(False, response)` otherwise,
with `TIMEOUT` / error-text payloads on exceptions; the saved timeout is
restored afterwards (also in the `finally`) — but only when it was not
`None`. -/
def receiveAcknowledgment (origTimeout : Option Nat) (timeout : Nat)
    (expected : List String) (r : SockRecvOutcome) : AckOutcome :=
  let maxLength := min ((expected.map String.length).foldl max 0) 1024
  let restored : Option Nat :=
    match origTimeout with
    | some t => some t
    | none => some timeout
  let sp : Bool × String :=
    match r with
    | .bytes s =>
      match expected.find? (fun e => pyStartsWith s e) with
      | some e => (true, e)
      | none => (false, s)
    | .timedOut => (false, "TIMEOUT")
    | .sockError m => (false, "SOCKET_ERROR_" ++ m)
    | .otherError m => (false, m)
  ⟨sp.1, sp.2, maxLength, timeout, restored⟩

/-- C8 counterexample: when the socket previously had **no** timeout
(blocking mode, `gettimeout() = None`), the helper does not restore that
setting — the socket is left with the helper's own timeout (here 30), so
the claim "restores the socket's previous timeout setting afterward" fails
at this input. -/
theorem receive_acknowledgment_no_restore_cex :
    (receiveAcknowledgment none 30 ["ACK1", "MISMATCH"]
        (.bytes "ACK1")).finalTimeout = some 30 ∧
    (some 30 : Option Nat) ≠ none := by
  exact ⟨rfl, by decide⟩

/-- C8 amended: the helper requests at most
`min(length of longest expected token, 1024)` bytes, performs the read
under exactly the supplied timeout, returns success with the first matching
expected token when the received bytes start with one (failure carries the
raw bytes otherwise, or a `TIMEOUT` marker), and afterwards restores the
previous timeout **when one was set**; a socket previously in blocking mode
(`None`) is left with the helper's timeout instead. -/
theorem receive_acknowledgment_amended (origTimeout : Option Nat) (timeout : Nat)
    (expected : List String) (r : SockRecvOutcome) (hne : expected ≠ []) :
    (receiveAcknowledgment origTimeout timeout expected r).requestedLen =
      min ((expected.map String.length).foldl max 0) 1024 ∧
    (receiveAcknowledgment origTimeout timeout expected r).recvTimeout = timeout ∧
    (receiveAcknowledgment origTimeout timeout expected r).finalTimeout =
      some (origTimeout.getD timeout) ∧
    (∀ s, r = .bytes s →
      (((receiveAcknowledgment origTimeout timeout expected r).success = true ↔
          ∃ e ∈ expected, pyStartsWith s e = true) ∧
       ((receiveAcknowledgment origTimeout timeout expected r).success = true →
          (receiveAcknowledgment origTimeout timeout expected r).payload ∈ expected ∧
          pyStartsWith s
            (receiveAcknowledgment origTimeout timeout expected r).payload = true) ∧
       ((receiveAcknowledgment origTimeout timeout expected r).success = false →
          (receiveAcknowledgment origTimeout timeout expected r).payload = s))) ∧
    (r = .timedOut →
      (receiveAcknowledgment origTimeout timeout expected r).success = false ∧
      (receiveAcknowledgment origTimeout timeout expected r).payload = "TIMEOUT") := by
  refine ⟨rfl, rfl, ?_, ?_, ?_⟩
  · cases origTimeout <;> rfl
  · intro s hs
    subst hs
    simp only [receiveAcknowledgment]
    cases hf : expected.find? (fun e => pyStartsWith s e) with
    | none =>
      refine ⟨?_, by simp, fun _ => rfl⟩
      simp only [Bool.false_eq_true, false_iff]
      rintro ⟨e, he, hpre⟩
      have hnone := List.find?_eq_none.mp hf e he
      simp [hpre] at hnone
    | some e =>
      have hmem : e ∈ expected := List.mem_of_find?_eq_some hf
      have hpre : pyStartsWith s e = true := by
        have h := List.find?_some hf
        simpa using h
      exact ⟨⟨fun _ => ⟨e, hmem, hpre⟩, fun _ => rfl⟩, fun _ => ⟨hmem, hpre⟩,
        by simp⟩
  · intro hr
    subst hr
    exact ⟨rfl, rfl⟩

/-- Witness for the amended C8 at a concrete call: previous timeout 120,
helper timeout 60, receiver replied `ACK2`. -/
theorem receive_acknowledgment_amended_witness :
    (receiveAcknowledgment (some 120) 60 ["ACK2"] (.bytes "ACK2")).requestedLen =
      min (((["ACK2"] : List String).map String.length).foldl max 0) 1024 ∧
    (receiveAcknowledgment (some 120) 60 ["ACK2"] (.bytes "ACK2")).recvTimeout = 60 ∧
    (receiveAcknowledgment (some 120) 60 ["ACK2"] (.bytes "ACK2")).finalTimeout =
      some ((some 120 : Option Nat).getD 60) ∧
    (∀ s, (SockRecvOutcome.bytes "ACK2") = .bytes s →
      (((receiveAcknowledgment (some 120) 60 ["ACK2"] (.bytes "ACK2")).success = true ↔
          ∃ e ∈ (["ACK2"] : List String), pyStartsWith s e = true) ∧
       ((receiveAcknowledgment (some 120) 60 ["ACK2"] (.bytes "ACK2")).success = true →
          (receiveAcknowledgment (some 120) 60 ["ACK2"] (.bytes "ACK2")).payload ∈
            (["ACK2"] : List String) ∧
          pyStartsWith s
            (receiveAcknowledgment (some 120) 60 ["ACK2"] (.bytes "ACK2")).payload
            = true) ∧
       ((receiveAcknowledgment (some 120) 60 ["ACK2"] (.bytes "ACK2")).success = false →
          (receiveAcknowledgment (some 120) 60 ["ACK2"] (.bytes "ACK2")).payload = s))) ∧
    ((SockRecvOutcome.bytes "ACK2") = SockRecvOutcome.timedOut →
      (receiveAcknowledgment (some 120) 60 ["ACK2"] (.bytes "ACK2")).success = false ∧
      (receiveAcknowledgment (some 120) 60 ["ACK2"] (.bytes "ACK2")).payload = "TIMEOUT") :=
  receive_acknowledgment_amended (some 120) 60 ["ACK2"] (.bytes "ACK2") (by decide)

/-! ## `handle_client`: hash-algorithm negotiation (receiver.py) -/

/-- The receiver's reply decision for the `hash_algorithm` metadata field. -/
inductive AlgoReply where
  | ack1      -- `ACK1` sent (algorithms agree, or field absent/empty)
  | ack1Skip  -- mismatch, but `SKIP_HASH_VERIFICATION`: warn and send `ACK1`
  | mismatch  -- `MISMATCH` sent, handler returns before any dispatch
deriving DecidableEq

/-- Python truthiness of the `hash_algorithm` field: `None` and the empty
string are falsy. -/
def algoTruthy : Option String → Bool
  | none => false
  | some a => !a.data.isEmpty

/-- The algorithm-negotiation branch of `handle_client`:
`sender_algo = metadata.get('hash_algorithm', None)` followed by
`if sender_algo and sender_algo.lower() != HASH_ALGORITHM.lower():`. -/
def algoDecision (senderAlgo : Option String) (localAlgo : String)
    (skipHashVerification : Bool) : AlgoReply :=
  if algoTruthy senderAlgo && (pyLower (senderAlgo.getD "") != pyLower localAlgo) then
    if skipHashVerification then .ack1Skip else .mismatch
  else .ack1

/-- What `handle_client` has done by the time the negotiation branch
resolves: control tokens sent, whether it dispatched to
`receive_file`/`receive_directory`, payload bytes read so far, whether any
filesystem write has occurred, and whether the client socket ends closed
(the `finally` block always closes it). -/
structure ClientNegotiation where
  tokensSent : List String
  dispatched : Bool
  payloadBytesRead : Nat
  fsWritten : Bool
  connectionClosed : Bool
deriving DecidableEq

/-- The negotiation step of `handle_client`: on `MISMATCH` the handler
returns immediately (no dispatch, nothing read beyond the metadata, no
filesystem writes); otherwise `ACK1` is sent and the transfer is
dispatched. -/
def handleClientNegotiation (senderAlgo : Option String) (localAlgo : String)
    (skipHashVerification : Bool) : ClientNegotiation :=
  match algoDecision senderAlgo localAlgo skipHashVerification with
  | .mismatch => ⟨["MISMATCH"], false, 0, false, true⟩
  | .ack1 => ⟨["ACK1"], true, 0, false, true⟩
  | .ack1Skip => ⟨["ACK1"], true, 0, false, true⟩

/-- `send_file` immediately after sending the manifest: it awaits one of
`ACK1`/`MISMATCH` via `_receive_acknowledgment`.  `returnValue = some b`
means `send_file` returns `b` at this phase; `none` means it proceeds to
stream the payload.  In every aborting case zero payload bytes were sent. -/
structure SendMetaOutcome where
  returnValue : Option Bool
  payloadBytesSent : Nat
  mismatchReported : Bool
deriving DecidableEq

/-- The metadata-acknowledgment phase of `send_file` (sender.py): a failed
acknowledgment raises (caught by the outer handler, which returns `False`);
a `MISMATCH` reply runs `_handle_hash_mismatch` and returns `False`; an
`ACK1` reply proceeds to the payload loop. -/
def sendFileMetaPhase (origTimeout : Option Nat) (r : SockRecvOutcome) :
    SendMetaOutcome :=
  let ack := receiveAcknowledgment origTimeout 30 ["ACK1", "MISMATCH"] r
  if ack.success = false then ⟨some false, 0, false⟩
  else if ack.payload == "MISMATCH" then ⟨some false, 0, true⟩
  else ⟨none, 0, false⟩

/-- C6: when the manifest's declared hash algorithm is present and differs
(case-insensitively) from the receiver's configured one and
`SKIP_HASH_VERIFICATION` is false, the receiver replies `MISMATCH` and
closes without dispatching — no payload bytes are read and no filesystem
write occurs — and the sender, on reading `MISMATCH`, returns `false`
having sent zero payload bytes and having reported the hash-algorithm
mismatch. -/
theorem hash_algorithm_mismatch_rejects (a b : String) (ot : Option Nat)
    (ha : a ≠ "") (hne : pyLower a ≠ pyLower b) :
    handleClientNegotiation (some a) b false = ⟨["MISMATCH"], false, 0, false, true⟩ ∧
    sendFileMetaPhase ot (.bytes "MISMATCH") = ⟨some false, 0, true⟩ := by
  constructor
  · have htr : algoTruthy (some a) = true := by
      simp only [algoTruthy, Bool.not_eq_true']
      cases a with
      | mk data =>
        cases data with
        | nil => exact absurd rfl ha
        | cons c cs => rfl
    have hcond : (algoTruthy (some a) &&
        (pyLower ((some a).getD "") != pyLower b)) = true := by
      rw [Option.getD_some, htr, bne_iff_ne.mpr hne]
      rfl
    simp only [handleClientNegotiation, algoDecision]
    rw [if_pos hcond]
    rfl
  · rfl

/-- Witness for C6 with sender algorithm "sha256" and receiver algorithm
"md5". -/
theorem hash_algorithm_mismatch_rejects_witness :
    handleClientNegotiation (some "sha256") "md5" false =
      ⟨["MISMATCH"], false, 0, false, true⟩ ∧
    sendFileMetaPhase (some 30) (.bytes "MISMATCH") = ⟨some false, 0, true⟩ :=
  hash_algorithm_mismatch_rejects "sha256" "md5" (some 30) (by decide) (by decide)

/-- C10: when the decoded manifest omits the `hash_algorithm` field (or it
is empty — both are falsy in Python), `handle_client` skips the
algorithm-negotiation check entirely and replies `ACK1`, dispatching the
transfer regardless of the locally configured algorithm and of
`SKIP_HASH_VERIFICATION`. -/
theorem missing_algo_field_skips_check (localAlgo : String) (skip : Bool) :
    handleClientNegotiation none localAlgo skip = ⟨["ACK1"], true, 0, false, true⟩ ∧
    handleClientNegotiation (some "") localAlgo skip =
      ⟨["ACK1"], true, 0, false, true⟩ := by
  exact ⟨rfl, rfl⟩

/-! ## `send_file` operation order (sender.py)

`send_file` validates the path, then: `create_socket` / `settimeout` /
`connect` (line 95), *then* `calculate_file_hash` (line 102), then sends the
4-byte length prefix and the manifest, awaits `ACK1`/`MISMATCH`, streams the
payload chunks, and awaits `DONE`. -/

/-- Events of one `send_file` invocation, in program order. -/
inductive SendEvt where
  | connect
  | hashComputed
  | sendMetaLen
  | sendMeta
  | awaitMetaAck
  | mismatchAbort
  | ackFailAbort
  | sendChunk (i : Nat)
  | awaitDone
deriving DecidableEq

/-- Whether an event is an operation on the socket (connect, send or
receive).  `hashComputed` and the UI abort events are not. -/
def isSocketIO : SendEvt → Bool
  | .connect | .sendMetaLen | .sendMeta | .awaitMetaAck
  | .sendChunk _ | .awaitDone => true
  | .hashComputed | .mismatchAbort | .ackFailAbort => false

/-- Whether an event is a send or receive on the socket (`connect` is
network I/O but not a send/recv). -/
def isSendRecv : SendEvt → Bool
  | .sendMetaLen | .sendMeta | .awaitMetaAck | .sendChunk _ | .awaitDone => true
  | .connect | .hashComputed | .mismatchAbort | .ackFailAbort => false

/-- The event trace of `send_file` after the local path checks, for a
payload of `numChunks` buffer-sized chunks; `ackOk`/`mismatch` give the
outcome of the metadata acknowledgment. -/
def sendFileTrace (ackOk mismatch : Bool) (numChunks : Nat) : List SendEvt :=
  [.connect, .hashComputed, .sendMetaLen, .sendMeta, .awaitMetaAck] ++
    (if ackOk = false then [.ackFailAbort]
     else if mismatch then [.mismatchAbort]
     else (List.range numChunks).map .sendChunk ++ [.awaitDone])

/-- C3 counterexample: in `send_file` the socket `connect` (a network
operation) happens strictly **before** `calculate_file_hash` returns — the
trace's first event is `connect` and `hashComputed` only comes second — so
the claim "no connect, send, or receive on the socket happens before
`calculate_file_hash` has returned" is false for this (and every)
invocation. -/
theorem send_file_connect_before_hash_cex :
    (sendFileTrace true false 2)[0]? = some SendEvt.connect ∧
    (sendFileTrace true false 2)[1]? = some SendEvt.hashComputed ∧
    isSocketIO SendEvt.connect = true := by
  exact ⟨rfl, rfl, rfl⟩

/-- C3 amended: in `send_file` the source file's hash is computed before any
**send or receive** on the socket, but after the TCP `connect`: for every
invocation the events preceding `hashComputed` are exactly `[connect]`, and
none of them is a send/receive. -/
theorem send_file_hash_before_send_recv (ackOk mismatch : Bool) (numChunks : Nat) :
    (sendFileTrace ackOk mismatch numChunks).takeWhile
        (fun e => e != SendEvt.hashComputed) = [.connect] ∧
    (∀ e, e ∈ (sendFileTrace ackOk mismatch numChunks).takeWhile
        (fun e => e != SendEvt.hashComputed) → isSendRecv e = false) := by
  refine ⟨rfl, ?_⟩
  intro e he
  rw [show (sendFileTrace ackOk mismatch numChunks).takeWhile
      (fun e => e != SendEvt.hashComputed) = [.connect] from rfl] at he
  simp only [List.mem_singleton] at he
  subst he
  rfl

/-! ## Directory-transfer ordering (receiver.py / sender.py)

The receiver's `receive_directory` loop handles the manifest's `files` in
list order: for each entry it opens the entry's file under the temp root,
reads exactly the declared size in chunks (an exhausted stream — or any
other per-entry failure, all of which raise identically — aborts the whole
loop), validates `os.path.getsize` against the declared size, verifies the
hash, and only then sends `ACK2`, before touching the next entry.  The
sender's `send_directory` loop sends a liveness probe, streams one entry's
bytes, and blocks on `ACK2` before starting the next entry.  Entries are
abstracted to their sizes; `avail` is how many payload bytes the peer
delivers before the stream dies. -/

/-- Events of the receiver's directory loop, indexed by entry position. -/
inductive DirEvt where
  | rstart (i : Nat)     -- begin entry i (create parents, open its file)
  | rreadDone (i : Nat)  -- entry i's declared bytes fully read
  | rsizeOk (i : Nat)    -- on-disk size validated against declared size
  | rack2 (i : Nat)      -- ACK2 sent for entry i
  | rconnLost (i : Nat)  -- stream ended inside entry i: abort
  | rfinalize            -- temp dir renamed into place
  | rdone                -- DONE sent
deriving DecidableEq

/-- Entry index carried by an event, when any. -/
def dirEvtIdx : DirEvt → Option Nat
  | .rstart i | .rreadDone i | .rsizeOk i | .rack2 i | .rconnLost i => some i
  | .rfinalize | .rdone => none

/-- Receiver-side event trace of `receive_directory`'s entry loop, starting
at entry index `i0` with `avail` payload bytes still to come. -/
def recvDirTrace : (entries : List Nat) → (i0 avail : Nat) → List DirEvt
  | [], _, _ => [.rfinalize, .rdone]
  | s :: rest, i0, avail =>
    if s ≤ avail then
      .rstart i0 :: .rreadDone i0 :: .rsizeOk i0 :: .rack2 i0 ::
        recvDirTrace rest (i0 + 1) (avail - s)
    else [.rstart i0, .rconnLost i0]

/-- Events of the sender's directory loop. -/
inductive SendDirEvt where
  | sprobe (i : Nat)      -- zero-length liveness write before entry i
  | ssendStart (i : Nat)  -- begin streaming entry i's bytes
  | ssendDone (i : Nat)   -- entry i's bytes fully sent
  | sackOk (i : Nat)      -- ACK2 for entry i received
  | sackFail (i : Nat)    -- acknowledgment failed: abort
  | sdone                 -- final DONE received
deriving DecidableEq

/-- Entry index carried by a sender event, when any. -/
def sendDirEvtIdx : SendDirEvt → Option Nat
  | .sprobe i | .ssendStart i | .ssendDone i | .sackOk i | .sackFail i => some i
  | .sdone => none

/-- Sender-side event trace of `send_directory`'s entry loop; `acks i`
tells whether the `ACK2` wait for the i-th remaining entry succeeds. -/
def sendDirTrace : (entries : List Nat) → (acks : List Bool) → (i0 : Nat) →
    List SendDirEvt
  | [], _, _ => [.sdone]
  | _ :: rest, acks, i0 =>
    .sprobe i0 :: .ssendStart i0 :: .ssendDone i0 ::
      (if acks.headD false then
        .sackOk i0 :: sendDirTrace rest acks.tail (i0 + 1)
       else [.sackFail i0])

theorem recvDirTrace_idx_ge :
    ∀ (entries : List Nat) (i0 avail : Nat) (e : DirEvt),
      e ∈ recvDirTrace entries i0 avail → ∀ j, dirEvtIdx e = some j → i0 ≤ j := by
  intro entries
  induction entries with
  | nil =>
    intro i0 avail e he j hj
    simp only [recvDirTrace, List.mem_cons, List.mem_singleton,
      List.not_mem_nil, or_false] at he
    rcases he with h | h <;> subst h <;> simp [dirEvtIdx] at hj
  | cons s rest ih =>
    intro i0 avail e he j hj
    simp only [recvDirTrace] at he
    by_cases hs : s ≤ avail
    · rw [if_pos hs] at he
      simp only [List.mem_cons] at he
      rcases he with h | h | h | h | h
      · subst h; simp only [dirEvtIdx, Option.some.injEq] at hj; omega
      · subst h; simp only [dirEvtIdx, Option.some.injEq] at hj; omega
      · subst h; simp only [dirEvtIdx, Option.some.injEq] at hj; omega
      · subst h; simp only [dirEvtIdx, Option.some.injEq] at hj; omega
      · have := ih (i0 + 1) (avail - s) e h j hj
        omega
    · rw [if_neg hs] at he
      simp only [List.mem_cons, List.mem_singleton, List.not_mem_nil,
        or_false] at he
      rcases he with h | h <;>
        (subst h; simp only [dirEvtIdx, Option.some.injEq] at hj; omega)

theorem sendDirTrace_idx_ge :
    ∀ (entries : List Nat) (acks : List Bool) (i0 : Nat) (e : SendDirEvt),
      e ∈ sendDirTrace entries acks i0 → ∀ j, sendDirEvtIdx e = some j → i0 ≤ j := by
  intro entries
  induction entries with
  | nil =>
    intro acks i0 e he j hj
    simp only [sendDirTrace, List.mem_singleton] at he
    subst he
    simp [sendDirEvtIdx] at hj
  | cons s rest ih =>
    intro acks i0 e he j hj
    simp only [sendDirTrace] at he
    by_cases ha : acks.headD false
    · rw [if_pos ha] at he
      simp only [List.mem_cons] at he
      rcases he with h | h | h | h | h
      · subst h; simp only [sendDirEvtIdx, Option.some.injEq] at hj; omega
      · subst h; simp only [sendDirEvtIdx, Option.some.injEq] at hj; omega
      · subst h; simp only [sendDirEvtIdx, Option.some.injEq] at hj; omega
      · subst h; simp only [sendDirEvtIdx, Option.some.injEq] at hj; omega
      · have := ih acks.tail (i0 + 1) e h j hj
        omega
    · rw [if_neg ha] at he
      simp only [List.mem_cons, List.mem_singleton, List.not_mem_nil,
        or_false] at he
      rcases he with h | h | h | h <;>
        (subst h; simp only [sendDirEvtIdx, Option.some.injEq] at hj; omega)

theorem recvDirTrace_ack2_after_read :
    ∀ (entries : List Nat) (i0 avail i : Nat), i0 ≤ i →
      DirEvt.rack2 i ∈ recvDirTrace entries i0 avail →
      List.Sublist [DirEvt.rreadDone i, DirEvt.rsizeOk i, DirEvt.rack2 i]
        (recvDirTrace entries i0 avail) := by
  intro entries
  induction entries with
  | nil =>
    intro i0 avail i _ hmem
    simp [recvDirTrace] at hmem
  | cons s rest ih =>
    intro i0 avail i hle hmem
    simp only [recvDirTrace] at hmem ⊢
    by_cases hs : s ≤ avail
    · rw [if_pos hs] at hmem ⊢
      by_cases hi : i = i0
      · subst hi
        exact .cons _ (.cons₂ _ (.cons₂ _ (.cons₂ _ (List.nil_sublist _))))
      · have hmem' : DirEvt.rack2 i ∈ recvDirTrace rest (i0 + 1) (avail - s) := by
          simp only [List.mem_cons] at hmem
          rcases hmem with h | h | h | h | h
          · exact absurd h (by simp)
          · exact absurd h (by simp)
          · exact absurd h (by simp)
          · exact absurd h (by simp [hi])
          · exact h
        have hge : i0 + 1 ≤ i :=
          recvDirTrace_idx_ge rest (i0 + 1) (avail - s) _ hmem' i rfl
        exact .cons _ (.cons _ (.cons _ (.cons _ (ih (i0 + 1) (avail - s) i hge hmem'))))
    · rw [if_neg hs] at hmem
      simp at hmem

theorem recvDirTrace_next_after_ack2 :
    ∀ (entries : List Nat) (i0 avail i : Nat), i0 ≤ i →
      DirEvt.rstart (i + 1) ∈ recvDirTrace entries i0 avail →
      List.Sublist [DirEvt.rack2 i, DirEvt.rstart (i + 1)]
        (recvDirTrace entries i0 avail) := by
  intro entries
  induction entries with
  | nil =>
    intro i0 avail i _ hmem
    simp [recvDirTrace] at hmem
  | cons s rest ih =>
    intro i0 avail i hle hmem
    simp only [recvDirTrace] at hmem ⊢
    by_cases hs : s ≤ avail
    · rw [if_pos hs] at hmem ⊢
      have hmem' : DirEvt.rstart (i + 1) ∈ recvDirTrace rest (i0 + 1) (avail - s) := by
        simp only [List.mem_cons] at hmem
        rcases hmem with h | h | h | h | h
        · exact absurd h (by simp; omega)
        · exact absurd h (by simp)
        · exact absurd h (by simp)
        · exact absurd h (by simp)
        · exact h
      by_cases hi : i = i0
      · subst hi
        exact .cons _ (.cons _ (.cons _ (.cons₂ _
          (List.singleton_sublist.mpr hmem'))))
      · have hge : i0 + 1 ≤ i + 1 :=
          recvDirTrace_idx_ge rest (i0 + 1) (avail - s) _ hmem' (i + 1) rfl
        have hge' : i0 + 1 ≤ i := by
          rcases Nat.lt_or_ge i0 i with h | h
          · omega
          · omega
        exact .cons _ (.cons _ (.cons _ (.cons _
          (ih (i0 + 1) (avail - s) i hge' hmem'))))
    · rw [if_neg hs] at hmem
      simp only [List.mem_cons, List.mem_singleton, List.not_mem_nil,
        or_false] at hmem
      rcases hmem with h | h
      · exact absurd h (by simp; omega)
      · exact absurd h (by simp)

theorem sendDirTrace_next_after_ack :
    ∀ (entries : List Nat) (acks : List Bool) (i0 i : Nat), i0 ≤ i →
      SendDirEvt.ssendStart (i + 1) ∈ sendDirTrace entries acks i0 →
      List.Sublist [SendDirEvt.sackOk i, SendDirEvt.ssendStart (i + 1)]
        (sendDirTrace entries acks i0) := by
  intro entries
  induction entries with
  | nil =>
    intro acks i0 i _ hmem
    simp [sendDirTrace] at hmem
  | cons s rest ih =>
    intro acks i0 i hle hmem
    simp only [sendDirTrace] at hmem ⊢
    by_cases ha : acks.headD false
    · rw [if_pos ha] at hmem ⊢
      have hmem' : SendDirEvt.ssendStart (i + 1) ∈
          sendDirTrace rest acks.tail (i0 + 1) := by
        simp only [List.mem_cons] at hmem
        rcases hmem with h | h | h | h | h
        · exact absurd h (by simp)
        · exact absurd h (by simp; omega)
        · exact absurd h (by simp)
        · exact absurd h (by simp)
        · exact h
      by_cases hi : i = i0
      · subst hi
        exact .cons _ (.cons _ (.cons _ (.cons₂ _
          (List.singleton_sublist.mpr hmem'))))
      · have hge' : i0 + 1 ≤ i := by
          have := sendDirTrace_idx_ge rest acks.tail (i0 + 1) _ hmem' (i + 1) rfl
          omega
        exact .cons _ (.cons _ (.cons _ (.cons _
          (ih acks.tail (i0 + 1) i hge' hmem'))))
    · rw [if_neg ha] at hmem
      simp only [List.mem_cons, List.mem_singleton, List.not_mem_nil,
        or_false] at hmem
      rcases hmem with h | h | h | h
      · exact absurd h (by simp)
      · exact absurd h (by simp; omega)
      · exact absurd h (by simp)
      · exact absurd h (by simp)

/-- C5: directory entries are processed strictly in manifest order with
ordered acknowledgment: whenever the receiver sends `ACK2` for entry `i`,
the full read and the size validation of entry `i` occur earlier in its
trace; the receiver never begins entry `i+1` before that `ACK2`; and the
sender never begins sending entry `i+1`'s bytes before receiving the `ACK2`
for entry `i`. -/
theorem directory_order_preservation (entries : List Nat) (avail : Nat)
    (acks : List Bool) (i : Nat) :
    (DirEvt.rack2 i ∈ recvDirTrace entries 0 avail →
      List.Sublist [DirEvt.rreadDone i, DirEvt.rsizeOk i, DirEvt.rack2 i]
        (recvDirTrace entries 0 avail)) ∧
    (DirEvt.rstart (i + 1) ∈ recvDirTrace entries 0 avail →
      List.Sublist [DirEvt.rack2 i, DirEvt.rstart (i + 1)]
        (recvDirTrace entries 0 avail)) ∧
    (SendDirEvt.ssendStart (i + 1) ∈ sendDirTrace entries acks 0 →
      List.Sublist [SendDirEvt.sackOk i, SendDirEvt.ssendStart (i + 1)]
        (sendDirTrace entries acks 0)) :=
  ⟨recvDirTrace_ack2_after_read entries 0 avail i (Nat.zero_le i),
   recvDirTrace_next_after_ack2 entries 0 avail i (Nat.zero_le i),
   sendDirTrace_next_after_ack entries acks 0 i (Nat.zero_le i)⟩

/-- Witness for C5 on a concrete 2-entry directory (sizes 2 and 1, all 3
payload bytes delivered, both acknowledgments succeeding), at entry 0. -/
theorem directory_order_preservation_witness :
    (List.Sublist [DirEvt.rreadDone 0, DirEvt.rsizeOk 0, DirEvt.rack2 0]
        (recvDirTrace [2, 1] 0 3)) ∧
    (List.Sublist [DirEvt.rack2 0, DirEvt.rstart 1] (recvDirTrace [2, 1] 0 3)) ∧
    (List.Sublist [SendDirEvt.sackOk 0, SendDirEvt.ssendStart 1]
        (sendDirTrace [2, 1] [true, true] 0)) :=
  ⟨(directory_order_preservation [2, 1] 3 [true, true] 0).1 (by decide),
   (directory_order_preservation [2, 1] 3 [true, true] 0).2.1 (by decide),
   (directory_order_preservation [2, 1] 3 [true, true] 0).2.2 (by decide)⟩


/-! ## `receive_directory` disk-space preflight (receiver.py)

The check is `if free_space < required_space * 1.1:` where `free_space` and
`required_space` are Python ints and `1.1` a float.  For
`required_space < 2^53` Python evaluates `required_space * 1.1` as: exact
conversion of the int to double, then one correctly rounded (to nearest,
ties to even) IEEE-754 binary64 multiplication; the `<` then compares the
exact integer with that double exactly.  The double nearest to the literal
`1.1` is `4953959590107546 / 2^52`, slightly *above* 11/10, so the product
can land on either side of the exact 1.1× boundary depending on rounding.

Everything is modelled in exact integer arithmetic scaled by `2^52`:
the exact product is `p / 2^52` with `p = n * 4953959590107546`; binary64
values in `[2^e, 2^(e+1))` lie on the grid of spacing `2^e / 2^52`, so the
correctly rounded product is `m * 2^e / 2^52` where `m` rounds `p / 2^e`
to an integer (ties to even), and `free < m * 2^e / 2^52` iff
`free * 2^52 < m * 2^e`. -/

/-- `⌊log₂ n⌋` (0 for `n = 0`), by structural fuel recursion so that it
evaluates inside `decide`. -/
def log2Fuel : Nat → Nat → Nat
  | 0, _ => 0
  | fuel + 1, n => if 2 ≤ n then log2Fuel fuel (n / 2) + 1 else 0

/-- The significand of the IEEE-754 binary64 value nearest to the literal
`1.1`, scaled by `2^52`:  `(1.1).hex() == '0x1.199999999999ap+0'`. -/
def elevenTenthsScaled : Nat := 4953959590107546

/-- The Python comparison `free < n * 1.1` (int `free`, int `n < 2^53`,
float literal `1.1`), in exact scaled-integer arithmetic. -/
def pyLtTimesElevenTenths (free n : Nat) : Bool :=
  if n = 0 then false
  else
    let p := n * elevenTenthsScaled
    let e := log2Fuel (p / 2 ^ 52) (p / 2 ^ 52)
    let m0 := p / 2 ^ e
    let rTwice := 2 * (p % 2 ^ e)
    let m := if 2 ^ e < rTwice then m0 + 1
      else if rTwice < 2 ^ e then m0
      else if m0 % 2 = 0 then m0 else m0 + 1
    decide (free * 2 ^ 52 < m * 2 ^ e)

/-- Outcome of `receive_directory`'s space preflight: whether `SPACE_ERROR`
was sent (aborting before `tempfile.mkdtemp`), and whether a temp directory
gets created. -/
structure DirPreflight where
  spaceErrorSent : Bool
  tempDirCreated : Bool
deriving DecidableEq

/-- The preflight of `receive_directory`: with a determinable
`get_disk_usage` result `(total, used, free)`, reject with `SPACE_ERROR`
and return — before any temp directory is created — exactly when
`free_space < required_space * 1.1` evaluates true; when disk usage cannot
be determined (`None`), warn and proceed. -/
def receiveDirectoryPreflight (diskUsage : Option (Nat × Nat × Nat))
    (totalSize : Nat) : DirPreflight :=
  match diskUsage with
  | some (_, _, free) =>
      if pyLtTimesElevenTenths free totalSize then ⟨true, false⟩
      else ⟨false, true⟩
  | none => ⟨false, true⟩

/-- C4 counterexample: with declared total size 10 and free space 11 —
exactly the mathematical 1.1× boundary, since 11 = (11/10)·10 — the
transfer is **accepted** (`10 * 1.1 == 11.0` exactly in double arithmetic
and the comparison is strict `<`), contradicting the claim that free space
exactly at the 1.1× boundary is rejected. -/
theorem space_preflight_boundary_cex :
    (11 : ℚ) = 11 / 10 * 10 ∧
    receiveDirectoryPreflight (some (100, 0, 11)) 10 = ⟨false, true⟩ := by
  constructor
  · norm_num
  · decide

/-- C4 amended: when free space can be determined, the transfer is rejected
with `SPACE_ERROR` — and no temp directory is created — exactly when the
free space is less than the declared total size times 1.1 **as computed in
IEEE-754 double arithmetic**; because `1.1` rounds up and the product is
rounded again, free space exactly at the mathematical 1.1× boundary may be
accepted (total 10, free 11: `10*1.1 == 11.0`) or rejected (total 50, free
55: `50*1.1 == 55.000000000000007`); the boundary plus one byte is
accepted in both cases. -/
theorem space_preflight_amended (total used free totalSize : Nat)
    (hts : totalSize < 2 ^ 53) :
    ((receiveDirectoryPreflight (some (total, used, free)) totalSize).spaceErrorSent
        = true ↔ pyLtTimesElevenTenths free totalSize = true) ∧
    ((receiveDirectoryPreflight (some (total, used, free)) totalSize).spaceErrorSent
        = true →
      (receiveDirectoryPreflight (some (total, used, free)) totalSize).tempDirCreated
        = false) ∧
    receiveDirectoryPreflight (some (total, used, 11)) 10 = ⟨false, true⟩ ∧
    receiveDirectoryPreflight (some (total, used, 12)) 10 = ⟨false, true⟩ ∧
    receiveDirectoryPreflight (some (total, used, 55)) 50 = ⟨true, false⟩ ∧
    receiveDirectoryPreflight (some (total, used, 56)) 50 = ⟨false, true⟩ := by
  refine ⟨?_, ?_, ?_, ?_, ?_, ?_⟩
  · simp only [receiveDirectoryPreflight]
    split <;> simp_all
  · simp only [receiveDirectoryPreflight]
    split <;> simp_all
  · simp only [receiveDirectoryPreflight]
    rw [if_neg (by decide)]
  · simp only [receiveDirectoryPreflight]
    rw [if_neg (by decide)]
  · simp only [receiveDirectoryPreflight]
    rw [if_pos (by decide)]
  · simp only [receiveDirectoryPreflight]
    rw [if_neg (by decide)]

/-- Witness for the amended C4 at concrete disk numbers (free 10, total 10:
rejected, since 10 < 11.0). -/
theorem space_preflight_amended_witness :
    ((receiveDirectoryPreflight (some (100, 0, 10)) 10).spaceErrorSent
        = true ↔ pyLtTimesElevenTenths 10 10 = true) ∧
    ((receiveDirectoryPreflight (some (100, 0, 10)) 10).spaceErrorSent = true →
      (receiveDirectoryPreflight (some (100, 0, 10)) 10).tempDirCreated = false) ∧
    receiveDirectoryPreflight (some (100, 0, 11)) 10 = ⟨false, true⟩ ∧
    receiveDirectoryPreflight (some (100, 0, 12)) 10 = ⟨false, true⟩ ∧
    receiveDirectoryPreflight (some (100, 0, 55)) 50 = ⟨true, false⟩ ∧
    receiveDirectoryPreflight (some (100, 0, 56)) 50 = ⟨false, true⟩ :=
  space_preflight_amended 100 0 10 10 (by norm_num)

end Transfer
